import Mathlib

/-!
# codeship-go: `Organization.request`

A shallow embedding of `src/organization.go`: the request pipeline of an
organization-scoped API handle (`Organization.request`) and the header copy
helper (`cloneHeader`), followed by theorems about them.

Conventions of the embedding.

* Go `[]byte` values and the text of error messages are lists of byte values
  (`List Nat`); the text of header keys, header values, tokens, methods and
  URLs is `String`.
* A Go `error` is a value of `GoError`; `nil` is `none`.
* `http.Header` is a Go map of string slices.  Maps and the backing arrays of
  slices live on an explicit `Heap`, addressed by numbers, so that sharing
  between two maps is visible.
* Everything `request` calls that is not defined in `organization.go` (the
  JSON encoder, the credential manager of the client, `http.NewRequest`, the
  transport, the dump helpers, the tables of `strconv`) is a field of `Env`.
* Every call of a collaborator is recorded, in program order, in a trace.
-/

namespace Codeship

/-! ## Bytes, errors and formatting -/

/-- Go `[]byte` value, also used for the text of error messages. -/
abbrev Bytes := List Nat

/-- The bytes of an ASCII string literal of the source. -/
def ascii (s : String) : Bytes := s.data.map Char.toNat

/-- A Go `error` value.  `mk` is an error that carries a message only
(`errors.New`, `fmt.Errorf`, or an error produced by a collaborator); `wrap`
is `errors.Wrap(cause, msg)` of `github.com/pkg/errors`. -/
inductive GoError where
  | mk (msg : Bytes)
  | wrap (cause : GoError) (msg : Bytes)
  deriving DecidableEq, Repr

/-- The text `err.Error()`: a wrapped error prints its own message, a colon
and a blank, then the text of its cause. -/
def GoError.Error : GoError → Bytes
  | .mk msg => msg
  | .wrap cause msg => msg ++ ascii ": " ++ cause.Error

/-- The verb `%d` on a natural number: its decimal digits. -/
def fmtNat (n : Nat) : Bytes := (Nat.toDigits 10 n).map Char.toNat

/-- The verb `%d` on a Go `int`: decimal digits, with a minus sign when
negative. -/
def fmtInt : Int → Bytes
  | .ofNat n => fmtNat n
  | .negSucc n => 45 :: fmtNat (n + 1)

/-- The table `lowerhex` of `strconv`: the hexadecimal digit of a nibble. -/
def lowerhex (n : Nat) : Nat := if n < 10 then 48 + n else 87 + n

/-- The escape `strconv.Quote` writes for one rune below `utf8.RuneSelf`
(0x80): the double quote and the backslash are backslashed, printable ASCII
(0x20 to 0x7e) is written as it is, the control characters with a short
escape get it, and every other byte is written as a two-digit hexadecimal
escape. -/
def escapeASCII (r : Nat) : Bytes :=
  if r = 34 ∨ r = 92 then [92, r]
  else if 32 ≤ r ∧ r ≤ 126 then [r]
  else if r = 7 then [92, 97]
  else if r = 8 then [92, 98]
  else if r = 12 then [92, 102]
  else if r = 10 then [92, 110]
  else if r = 13 then [92, 114]
  else if r = 9 then [92, 116]
  else if r = 11 then [92, 118]
  else [92, 120, lowerhex (r / 16), lowerhex (r % 16)]

/-- The loop of `strconv.Quote` over the bytes of the string.  A byte below
0x80 is one rune and is escaped by `escapeASCII`.  At a byte from 0x80 on,
`wide` stands for the UTF-8 decoder and the Unicode tables of the Go library:
it gives the text written for the rune that starts there and the number of
bytes the rune takes; the first argument counts the bytes of that rune still
to be skipped. -/
def quoteLoop (wide : Bytes → Bytes × Nat) : Nat → Bytes → Bytes
  | _, [] => []
  | skip + 1, _ :: rest => quoteLoop wide skip rest
  | 0, b :: rest =>
    if b < 128 then escapeASCII b ++ quoteLoop wide 0 rest
    else (wide (b :: rest)).1 ++ quoteLoop wide ((wide (b :: rest)).2 - 1) rest

/-- The verb `%q` on a string (`strconv.Quote`): the escaped text between
double quotes. -/
def fmtQuote (wide : Bytes → Bytes × Nat) (s : Bytes) : Bytes :=
  34 :: quoteLoop wide 0 s ++ [34]

/-! ## The heap: maps of string slices -/

/-- A Go `[]string` value: a window of `len` elements, from offset `off`,
of the backing array at address `arr`. -/
structure Slice where
  arr : Nat
  off : Nat
  len : Nat
  deriving DecidableEq, Repr

/-- The storage of a Go `map[string][]string`: the keys it holds and the
slice bound to each of them. -/
structure GoMap where
  keys : List String
  val : String → Slice

/-- The map `make(http.Header)` returns: no key. -/
def GoMap.empty : GoMap := ⟨[], fun _ => ⟨0, 0, 0⟩⟩

/-- The index expression `m[k]` with the comma-ok result. -/
def GoMap.lookup (m : GoMap) (k : String) : Option Slice :=
  if k ∈ m.keys then some (m.val k) else none

/-- The assignment `m[k] = v`. -/
def GoMap.assign (m : GoMap) (k : String) (v : Slice) : GoMap :=
  ⟨if k ∈ m.keys then m.keys else m.keys ++ [k], fun x => if x = k then v else m.val x⟩

/-- The statement `delete(m, k)`. -/
def GoMap.delete (m : GoMap) (k : String) : GoMap :=
  ⟨m.keys.filter (fun x => x ≠ k), m.val⟩

/-- The heap: the maps and the backing arrays allocated so far.  Addresses
below `nextMap` and `nextArr` are in use; an allocation takes the next one. -/
structure Heap where
  maps : Nat → GoMap
  nextMap : Nat
  arrays : Nat → List String
  nextArr : Nat

/-- Put a freshly built map on the heap and give its address. -/
def Heap.allocMap (hp : Heap) (m : GoMap) : Heap × Nat :=
  ({ hp with maps := fun a => if a = hp.nextMap then m else hp.maps a,
             nextMap := hp.nextMap + 1 }, hp.nextMap)

/-- The slice literal `[]string{...}`: a new backing array and the slice of
all of it. -/
def Heap.allocSlice (hp : Heap) (vs : List String) : Heap × Slice :=
  ({ hp with arrays := fun a => if a = hp.nextArr then vs else hp.arrays a,
             nextArr := hp.nextArr + 1 }, ⟨hp.nextArr, 0, vs.length⟩)

/-- The assignment `h[k] = v` on the map at address `a`. -/
def Heap.mapAssign (hp : Heap) (a : Nat) (k : String) (v : Slice) : Heap :=
  { hp with maps := fun x => if x = a then (hp.maps a).assign k v else hp.maps x }

/-- The statement `delete(h, k)` on the map at address `a`. -/
def Heap.mapDelete (hp : Heap) (a : Nat) (k : String) : Heap :=
  { hp with maps := fun x => if x = a then (hp.maps a).delete k else hp.maps x }

/-- The elements a slice shows. -/
def Heap.elems (hp : Heap) (s : Slice) : List String :=
  ((hp.arrays s.arr).drop s.off).take s.len

/-- The element assignment `s[i] = v`: a write into the backing array
(nothing happens here when the index is out of range, where Go panics). -/
def Heap.sliceStore (hp : Heap) (s : Slice) (i : Nat) (v : String) : Heap :=
  if i < s.len then
    { hp with arrays := fun a =>
        if a = s.arr then (hp.arrays s.arr).set (s.off + i) v else hp.arrays a }
  else hp

/-- The map behind a header reference; a nil map reads as a map with no
key. -/
def Heap.mapAt (hp : Heap) (r : Option Nat) : GoMap :=
  match r with
  | none => GoMap.empty
  | some a => hp.maps a

/-- What a reader of the header `r` sees under key `k`: nothing, or the list
of values. -/
def Heap.header (hp : Heap) (r : Option Nat) (k : String) : Option (List String) :=
  ((hp.mapAt r).lookup k).map hp.elems

/-- The method `http.Header.Get` for a key that is in canonical MIME form already (as
`Authorization` and `Content-Type` are): the first value under the key, or
the empty string when there is none. -/
def Heap.headerGet (hp : Heap) (r : Option Nat) (key : String) : String :=
  match (hp.mapAt r).lookup key with
  | none => ""
  | some s => if s.len = 0 then "" else ((hp.arrays s.arr).drop s.off).headD ""

/-- The method `http.Header.Set` for a key that is in canonical MIME form already:
`h[key] = []string{value}`. -/
def Heap.headerSet (hp : Heap) (a : Nat) (key value : String) : Heap :=
  (hp.allocSlice [value]).1.mapAssign a key (hp.allocSlice [value]).2

/-- The function `cloneHeader` of the source: a new map, and for every key of
`header` the assignment `h[k] = vs` of the very slice `header` binds to it.
Ranging over a nil map does nothing. -/
def cloneHeader (hp : Heap) (header : Option Nat) : Heap × Nat :=
  hp.allocMap
    ((hp.mapAt header).keys.foldl (fun h k => h.assign k ((hp.mapAt header).val k)) GoMap.empty)

/-- The header reference `r` is sound on the heap: when it is not nil its map
is allocated, and every slice the map binds has an allocated backing
array. -/
def Heap.holds (hp : Heap) (r : Option Nat) : Prop :=
  (∀ a ∈ r, a < hp.nextMap) ∧
    ∀ k ∈ (hp.mapAt r).keys, ((hp.mapAt r).val k).arr < hp.nextArr

instance (hp : Heap) (r : Option Nat) : Decidable (hp.holds r) := by
  unfold Heap.holds
  infer_instance

/-! ## The data of the pipeline -/

/-- Modelled from the spec: the authentication state of the client, whose
declaration is not part of `organization.go`: an access token and the data
that decides staleness (an expiry timestamp). -/
structure Authentication where
  AccessToken : String
  ExpiresAt : Int
  deriving DecidableEq, Repr

/-- Modelled from the spec: the client handle, whose declaration is not part
of `organization.go`, with the fields `request` reads: the base URL, the
default headers (a reference to a map, or nil), the verbosity flag and the
authentication state.  Its logger and its transport are collaborators
(`Env`). -/
structure Client where
  baseURL : String
  headers : Option Nat
  verbose : Bool
  authentication : Authentication
  deriving DecidableEq, Repr

/-- The type `Organization` of the source; `client` is the pointer to the
client, `none` when nil. -/
structure Organization where
  UUID : String
  Name : String
  Scopes : List String
  client : Option Client
  deriving DecidableEq, Repr

/-- The `http.Request` built by `request`: method, URL, the bytes of the body
reader (`none` for a nil reader) and the address of its header map. -/
structure Request where
  Method : String
  URL : String
  Body : Option Bytes
  Header : Nat
  deriving DecidableEq, Repr

/-- The bytes a transport reads from the body of a request. -/
def Request.bodyBytes (r : Request) : Bytes := r.Body.getD []

/-- The `http.Response` given by the transport: the status code, and the body
stream, held as what reading it to its end gives (the bytes, possibly a nil
slice, or a read error). -/
structure Response where
  StatusCode : Int
  Body : Except GoError (Option Bytes)

/-- One call of a collaborator, as recorded in the trace. -/
inductive Event where
  | encode
  | authenticationRequired
  | authenticate
  | newRequest
  | println (text : Bytes)
  | send (req : Request) (res : Except GoError Response)
  | readAll (res : Except GoError (Option Bytes))
  | close

/-- Whether an event is a call of the transport. -/
def Event.isSend : Event → Bool
  | .send _ _ => true
  | _ => false

/-- Whether an event is a call of `Authenticate`. -/
def Event.isAuthenticate : Event → Bool
  | .authenticate => true
  | _ => false

/-- The collaborators of `request`, none of them defined in
`organization.go`; `P` is the type of payloads.

* `jsonEncode p`: what `json.NewEncoder(buf).Encode(p)` leaves in `buf` (the
  JSON text of `p` and the newline the encoder ends it with), or its error;
* `AuthenticationRequired`, `Authenticate`: the credential manager of the
  client; `Authenticate` gives the authentication state it leaves and its
  error, if any;
* `NewRequest method url`: the error of `http.NewRequest`, if any;
* `DumpRequest`, `DumpResponse`: the helpers of `net/http/httputil`;
  `DumpResponse` also gives the body stream as it leaves it;
* `Do`: the transport `httpClient.Do`, which sees the request and the heap
  that holds its headers;
* `wide`: the tables of `strconv.Quote` for bytes from 0x80 on (see
  `quoteLoop`). -/
structure Env (P : Type) where
  jsonEncode : P → Except GoError Bytes
  AuthenticationRequired : Client → Bool
  Authenticate : Client → Authentication × Option GoError
  NewRequest : String → String → Option GoError
  DumpRequest : Heap → Request → Bool → Bytes
  Do : Heap → Request → Except GoError Response
  DumpResponse : Response → Bytes × Except GoError (Option Bytes)
  wide : Bytes → Bytes × Nat

/-- What a call of `request` leaves: the two results (`none` is nil), the
client as the call leaves it, the heap, and the trace of the collaborators
called. -/
structure Outcome where
  body : Option Bytes
  err : Option GoError
  client : Option Client
  heap : Heap
  trace : List Event

/-! ## The pipeline -/

/-- Lines 31 to 38: the body reader.  A nil payload leaves the reader nil;
any other payload is encoded into a buffer. -/
def encodeParams {P : Type} (env : Env P) (params : Option P) : Except GoError (Option Bytes) :=
  match params with
  | none => .ok none
  | some p =>
    match env.jsonEncode p with
    | .error e => .error e
    | .ok buf => .ok (some buf)

/-- Lines 42 to 46: the authentication gate.  `Authenticate` is called when
`AuthenticationRequired` says so; gives the authentication state after the
gate and the error of `Authenticate`, if any. -/
def authGate {P : Type} (env : Env P) (c : Client) : Authentication × Option GoError :=
  if env.AuthenticationRequired c then env.Authenticate c else (c.authentication, none)

/-- Lines 54 to 58: the headers of the request.  The default headers of the
client are cloned, `Authorization` is set, and `Content-Type` is set when
`Get` finds it empty.  Gives the heap and the address of the new map. -/
def assembleHeader (hp : Heap) (c : Client) : Heap × Nat :=
  let cl := cloneHeader hp c.headers
  let hp1 := cl.1.headerSet cl.2 "Authorization" ("Bearer " ++ c.authentication.AccessToken)
  if hp1.headerGet (some cl.2) "Content-Type" = "" then
    (hp1.headerSet cl.2 "Content-Type" "application/json", cl.2)
  else (hp1, cl.2)

/-- Lines 84 to 103: the switch on the status code, with the two results of
`request`. -/
def classify (wide : Bytes → Bytes × Nat) (status : Int) (body : Option Bytes) :
    Option Bytes × Option GoError :=
  if status = 200 ∨ status = 201 ∨ status = 202 then (body, none)
  else if status = 401 then
    (none, some (.mk (ascii "HTTP status " ++ fmtInt status ++ ascii ": invalid credentials")))
  else if status = 403 then
    (none, some (.mk (ascii "HTTP status " ++ fmtInt status ++ ascii ": insufficient permissions")))
  else if status ≥ 500 then
    (none, some (.mk (ascii "HTTP status " ++ fmtInt status ++ ascii ": server error")))
  else
    let s : Bytes := match body with
      | none => []
      | some b => b
    (none, some (.mk (ascii "HTTP status " ++ fmtInt status ++ ascii ": content " ++ fmtQuote wide s)))

/-- The client after the authentication gate: `Authenticate` writes the
authentication state of the client, nothing else of it. -/
def gateClient {P : Type} (env : Env P) (c : Client) : Client :=
  { c with authentication := (authGate env c).1 }

/-- The heap once the headers of the request are assembled. -/
def sentHeap {P : Type} (env : Env P) (hp : Heap) (c : Client) : Heap :=
  (assembleHeader hp (gateClient env c)).1

/-- The request as it stands after lines 48 to 58: `http.NewRequest` on the
method, the URL (base URL followed by the path) and the body reader, then the
assembled headers. -/
def outgoing {P : Type} (env : Env P) (hp : Heap) (c : Client) (method path : String)
    (reqBody : Option Bytes) : Request :=
  ⟨method, c.baseURL ++ path, reqBody, (assembleHeader hp (gateClient env c)).2⟩

/-- The trace up to the end of the authentication gate: the encoder when there
is a payload, `AuthenticationRequired`, and `Authenticate` when required. -/
def gateTrace {P : Type} (env : Env P) (c : Client) (params : Option P) : List Event :=
  (if params.isSome then [Event.encode] else []) ++ [Event.authenticationRequired] ++
    (if env.AuthenticationRequired c then [Event.authenticate] else [])

/-- The trace up to the call of the transport: `http.NewRequest`, the dump of
the request when verbose, and the call of `Do` with its result. -/
def sendTrace {P : Type} (env : Env P) (hp : Heap) (c : Client) (method path : String)
    (params : Option P) (reqBody : Option Bytes) : List Event :=
  gateTrace env c params ++ [Event.newRequest] ++
    (if c.verbose then
      [Event.println (env.DumpRequest (sentHeap env hp c) (outgoing env hp c method path reqBody)
        params.isSome)]
     else []) ++
    [Event.send (outgoing env hp c method path reqBody)
      (env.Do (sentHeap env hp c) (outgoing env hp c method path reqBody))]

/-- The body stream `ioutil.ReadAll` reads at line 79: when verbose, the one
`DumpResponse` has left. -/
def bodyStream {P : Type} (env : Env P) (c : Client) (resp : Response) :
    Except GoError (Option Bytes) :=
  if c.verbose then (env.DumpResponse resp).2 else resp.Body

/-- The trace from the response on: the dump of the response when verbose,
`ioutil.ReadAll`, and the deferred `Close`. -/
def readTrace {P : Type} (env : Env P) (c : Client) (resp : Response) : List Event :=
  (if c.verbose then [Event.println (env.DumpResponse resp).1] else []) ++
    [Event.readAll (bodyStream env c resp), Event.close]

/-- The method `request` of the source, on the heap `hp`. -/
def Organization.request {P : Type} (env : Env P) (hp : Heap) (o : Organization)
    (method path : String) (params : Option P) : Outcome :=
  match o.client with
  | none => ⟨none, some (.mk (ascii "client not instantiated")), none, hp, []⟩
  | some c =>
    match encodeParams env params with
    | .error e => ⟨none, some e, some c, hp, [Event.encode]⟩
    | .ok reqBody =>
      match (authGate env c).2 with
      | some e =>
        ⟨none, some (.wrap e (ascii "authentication failed")), some (gateClient env c), hp,
          gateTrace env c params⟩
      | none =>
        match env.NewRequest method (c.baseURL ++ path) with
        | some e =>
          ⟨none, some (.wrap e (ascii "HTTP request creation failed")), some (gateClient env c),
            hp, gateTrace env c params ++ [Event.newRequest]⟩
        | none =>
          match env.Do (sentHeap env hp c) (outgoing env hp c method path reqBody) with
          | .error e =>
            ⟨none, some (.wrap e (ascii "HTTP request failed")), some (gateClient env c),
              sentHeap env hp c, sendTrace env hp c method path params reqBody⟩
          | .ok resp =>
            match bodyStream env c resp with
            | .error e =>
              ⟨none, some (.wrap e (ascii "could not read response body")),
                some (gateClient env c), sentHeap env hp c,
                sendTrace env hp c method path params reqBody ++ readTrace env c resp⟩
            | .ok body =>
              ⟨(classify env.wide resp.StatusCode body).1,
                (classify env.wide resp.StatusCode body).2,
                some (gateClient env c), sentHeap env hp c,
                sendTrace env hp c method path params reqBody ++ readTrace env c resp⟩

/-! ## Concrete inputs -/

deriving instance DecidableEq for Except
deriving instance DecidableEq for Response
deriving instance DecidableEq for Event

/-- A stub of the collaborators, with numbers as payloads: the encoder
refuses the payload 0 and writes the digits and a newline for any other; the
credential manager asks for authentication when the token is empty, and
`Authenticate` fails for a client with no base URL; `http.NewRequest` refuses
the method `B D`; the transport answers every request with the given status
and body. -/
def stubEnv (status : Int) (body : Bytes) : Env Nat where
  jsonEncode := fun n =>
    if n = 0 then .error (.mk (ascii "json: unsupported value")) else .ok (fmtNat n ++ [10])
  AuthenticationRequired := fun c => c.authentication.AccessToken = ""
  Authenticate := fun c =>
    if c.baseURL = "" then (c.authentication, some (.mk (ascii "unable to authenticate")))
    else (⟨"fresh", 3600⟩, none)
  NewRequest := fun m _ => if m = "B D" then some (.mk (ascii "net/http: invalid method")) else none
  DumpRequest := fun _ _ _ => []
  Do := fun _ _ => .ok ⟨status, .ok (some body)⟩
  DumpResponse := fun r => ([], r.Body)
  wide := fun _ => ([92, 120], 1)

/-- A heap with nothing allocated. -/
def emptyHeap : Heap := ⟨fun _ => GoMap.empty, 0, fun _ => [], 0⟩

/-- A heap that holds one header map, at address 0, with the given entries:
the value list of the entry number `i` is the backing array at address `i`. -/
def headerHeap (entries : List (String × List String)) : Heap :=
  ⟨fun _ => ⟨entries.map Prod.fst,
      fun k => ⟨entries.findIdx (fun e => e.1 = k), 0,
        ((entries.map Prod.snd).getD (entries.findIdx (fun e => e.1 = k)) []).length⟩⟩,
    1, fun i => (entries.map Prod.snd).getD i [], entries.length⟩

/-- An organization whose client has a token, the given default headers and
verbosity. -/
def stubOrg (headers : Option Nat) (verbose : Bool) : Organization :=
  ⟨"28123f10-e33d-5533-b53f-111ef8d7b14f", "codeship", ["build.read"],
    some ⟨"https://api.codeship.com/v2", headers, verbose, ⟨"tok", 0⟩⟩⟩

/-- An organization with no client. -/
def orphanOrg : Organization := ⟨"28123f10-e33d-5533-b53f-111ef8d7b14f", "codeship", [], none⟩

/-- An organization whose client has no token and no base URL, so that the
stub credential manager is asked and fails. -/
def staleOrg : Organization :=
  ⟨"28123f10-e33d-5533-b53f-111ef8d7b14f", "codeship", [], some ⟨"", none, false, ⟨"", 0⟩⟩⟩

/-! ## The exits of `request` -/

/-- The exits of `request`, one per `return` of the source, each with the
results of the collaborators that lead to it and the whole outcome. -/
theorem request_cases {P : Type} (env : Env P) (hp : Heap) (o : Organization)
    (method path : String) (params : Option P) :
    (o.client = none ∧
      o.request env hp method path params =
        ⟨none, some (.mk (ascii "client not instantiated")), none, hp, []⟩) ∨
    (∃ c e, o.client = some c ∧ encodeParams env params = .error e ∧
      o.request env hp method path params = ⟨none, some e, some c, hp, [Event.encode]⟩) ∨
    (∃ c reqBody e, o.client = some c ∧ encodeParams env params = .ok reqBody ∧
      (authGate env c).2 = some e ∧
      o.request env hp method path params =
        ⟨none, some (.wrap e (ascii "authentication failed")), some (gateClient env c), hp,
          gateTrace env c params⟩) ∨
    (∃ c reqBody e, o.client = some c ∧ encodeParams env params = .ok reqBody ∧
      (authGate env c).2 = none ∧ env.NewRequest method (c.baseURL ++ path) = some e ∧
      o.request env hp method path params =
        ⟨none, some (.wrap e (ascii "HTTP request creation failed")), some (gateClient env c),
          hp, gateTrace env c params ++ [Event.newRequest]⟩) ∨
    (∃ c reqBody e, o.client = some c ∧ encodeParams env params = .ok reqBody ∧
      (authGate env c).2 = none ∧ env.NewRequest method (c.baseURL ++ path) = none ∧
      env.Do (sentHeap env hp c) (outgoing env hp c method path reqBody) = .error e ∧
      o.request env hp method path params =
        ⟨none, some (.wrap e (ascii "HTTP request failed")), some (gateClient env c),
          sentHeap env hp c, sendTrace env hp c method path params reqBody⟩) ∨
    (∃ c reqBody resp e, o.client = some c ∧ encodeParams env params = .ok reqBody ∧
      (authGate env c).2 = none ∧ env.NewRequest method (c.baseURL ++ path) = none ∧
      env.Do (sentHeap env hp c) (outgoing env hp c method path reqBody) = .ok resp ∧
      bodyStream env c resp = .error e ∧
      o.request env hp method path params =
        ⟨none, some (.wrap e (ascii "could not read response body")), some (gateClient env c),
          sentHeap env hp c,
          sendTrace env hp c method path params reqBody ++ readTrace env c resp⟩) ∨
    (∃ c reqBody resp body, o.client = some c ∧ encodeParams env params = .ok reqBody ∧
      (authGate env c).2 = none ∧ env.NewRequest method (c.baseURL ++ path) = none ∧
      env.Do (sentHeap env hp c) (outgoing env hp c method path reqBody) = .ok resp ∧
      bodyStream env c resp = .ok body ∧
      o.request env hp method path params =
        ⟨(classify env.wide resp.StatusCode body).1, (classify env.wide resp.StatusCode body).2,
          some (gateClient env c), sentHeap env hp c,
          sendTrace env hp c method path params reqBody ++ readTrace env c resp⟩) := by
  unfold Organization.request
  cases hc : o.client with
  | none => exact Or.inl ⟨rfl, rfl⟩
  | some c =>
    cases he : encodeParams env params with
    | error e => exact Or.inr (Or.inl ⟨c, e, rfl, rfl, rfl⟩)
    | ok reqBody =>
      cases ha : (authGate env c).2 with
      | some e => exact Or.inr (Or.inr (Or.inl ⟨c, reqBody, e, rfl, rfl, ha, by simp only [ha]⟩))
      | none =>
        cases hn : env.NewRequest method (c.baseURL ++ path) with
        | some e =>
          exact Or.inr (Or.inr (Or.inr (Or.inl ⟨c, reqBody, e, rfl, rfl, ha, hn, by simp only [ha, hn]⟩)))
        | none =>
          cases hd : env.Do (sentHeap env hp c) (outgoing env hp c method path reqBody) with
          | error e =>
            exact Or.inr (Or.inr (Or.inr (Or.inr (Or.inl
              ⟨c, reqBody, e, rfl, rfl, ha, hn, hd, by simp only [ha, hn, hd]⟩))))
          | ok resp =>
            cases hb : bodyStream env c resp with
            | error e =>
              exact Or.inr (Or.inr (Or.inr (Or.inr (Or.inr (Or.inl
                ⟨c, reqBody, resp, e, rfl, rfl, ha, hn, hd, hb, by simp only [ha, hn, hd, hb]⟩)))))
            | ok body =>
              exact Or.inr (Or.inr (Or.inr (Or.inr (Or.inr (Or.inr
                ⟨c, reqBody, resp, body, rfl, rfl, ha, hn, hd, hb, by simp only [ha, hn, hd, hb]⟩)))))

/-! ## The trace -/

theorem send_mem_gateTrace {P : Type} (env : Env P) (c : Client) (params : Option P)
    (req : Request) (res : Except GoError Response) :
    Event.send req res ∉ gateTrace env c params := by
  unfold gateTrace
  split <;> split <;> simp

theorem send_mem_sendTrace {P : Type} (env : Env P) (hp : Heap) (c : Client)
    (method path : String) (params : Option P) (reqBody : Option Bytes)
    (req : Request) (res : Except GoError Response) :
    Event.send req res ∈ sendTrace env hp c method path params reqBody ↔
      req = outgoing env hp c method path reqBody ∧
      res = env.Do (sentHeap env hp c) (outgoing env hp c method path reqBody) := by
  have hg := send_mem_gateTrace env c params req res
  unfold sendTrace
  split <;> simp [hg]

theorem send_mem_readTrace {P : Type} (env : Env P) (c : Client) (resp : Response)
    (req : Request) (res : Except GoError Response) :
    Event.send req res ∉ readTrace env c resp := by
  unfold readTrace
  split <;> simp

theorem readAll_mem_gateTrace {P : Type} (env : Env P) (c : Client) (params : Option P)
    (r : Except GoError (Option Bytes)) :
    Event.readAll r ∉ gateTrace env c params := by
  unfold gateTrace
  split <;> split <;> simp

theorem readAll_mem_sendTrace {P : Type} (env : Env P) (hp : Heap) (c : Client)
    (method path : String) (params : Option P) (reqBody : Option Bytes)
    (r : Except GoError (Option Bytes)) :
    Event.readAll r ∉ sendTrace env hp c method path params reqBody := by
  have hg := readAll_mem_gateTrace env c params r
  unfold sendTrace
  split <;> simp [hg]

theorem readAll_mem_readTrace {P : Type} (env : Env P) (c : Client) (resp : Response)
    (r : Except GoError (Option Bytes)) :
    Event.readAll r ∈ readTrace env c resp ↔ r = bodyStream env c resp := by
  unfold readTrace
  split <;> simp

/-- What the trace tells when it holds a call of the transport: the client was
bound, the payload was encoded, the gate was passed and the request was
created; the request sent is `outgoing`, on the heap `sentHeap`. -/
theorem send_mem_trace {P : Type} (env : Env P) (hp : Heap) (o : Organization)
    (method path : String) (params : Option P) (req : Request) (res : Except GoError Response)
    (h : Event.send req res ∈ (o.request env hp method path params).trace) :
    ∃ c reqBody, o.client = some c ∧ encodeParams env params = .ok reqBody ∧
      (authGate env c).2 = none ∧ env.NewRequest method (c.baseURL ++ path) = none ∧
      req = outgoing env hp c method path reqBody ∧
      res = env.Do (sentHeap env hp c) (outgoing env hp c method path reqBody) ∧
      (o.request env hp method path params).heap = sentHeap env hp c ∧
      (o.request env hp method path params).client = some (gateClient env c) := by
  rcases request_cases env hp o method path params with
    ⟨_, hr⟩ | ⟨c, e, _, _, hr⟩ | ⟨c, b, e, _, _, _, hr⟩ | ⟨c, b, e, _, _, _, _, hr⟩ |
    ⟨c, b, e, hc, he, ha, hn, _, hr⟩ | ⟨c, b, resp, e, hc, he, ha, hn, _, _, hr⟩ |
    ⟨c, b, resp, body, hc, he, ha, hn, _, _, hr⟩
  · simp [hr] at h
  · simp [hr] at h
  · simp [hr, send_mem_gateTrace] at h
  · simp [hr, send_mem_gateTrace] at h
  · rw [hr] at h ⊢
    simp only [send_mem_sendTrace] at h
    exact ⟨c, b, hc, he, ha, hn, h.1, h.2, rfl, rfl⟩
  · rw [hr] at h ⊢
    simp only [List.mem_append, send_mem_sendTrace, send_mem_readTrace, or_false] at h
    exact ⟨c, b, hc, he, ha, hn, h.1, h.2, rfl, rfl⟩
  · rw [hr] at h ⊢
    simp only [List.mem_append, send_mem_sendTrace, send_mem_readTrace, or_false] at h
    exact ⟨c, b, hc, he, ha, hn, h.1, h.2, rfl, rfl⟩

/-- What the two results are once the transport has answered: the switch on
the status when the body was read, the wrapped read error otherwise. -/
theorem results_of_response {P : Type} (env : Env P) (hp : Heap) (o : Organization)
    (method path : String) (params : Option P) (req : Request) (resp : Response)
    (h : Event.send req (.ok resp) ∈ (o.request env hp method path params).trace) :
    ∃ c, o.client = some c ∧
      ((∃ e, bodyStream env c resp = .error e ∧
          (o.request env hp method path params).body = none ∧
          (o.request env hp method path params).err =
            some (.wrap e (ascii "could not read response body")) ∧
          ∀ r, Event.readAll r ∈ (o.request env hp method path params).trace → r = .error e) ∨
       (∃ body, bodyStream env c resp = .ok body ∧
          (o.request env hp method path params).body =
            (classify env.wide resp.StatusCode body).1 ∧
          (o.request env hp method path params).err =
            (classify env.wide resp.StatusCode body).2 ∧
          ∀ r, Event.readAll r ∈ (o.request env hp method path params).trace → r = .ok body)) := by
  rcases request_cases env hp o method path params with
    ⟨_, hr⟩ | ⟨c, e, _, _, hr⟩ | ⟨c, b, e, _, _, _, hr⟩ | ⟨c, b, e, _, _, _, _, hr⟩ |
    ⟨c, b, e, hc, he, ha, hn, hd, hr⟩ | ⟨c, b, resp1, e, hc, he, ha, hn, hd, hb, hr⟩ |
    ⟨c, b, resp1, body, hc, he, ha, hn, hd, hb, hr⟩
  · simp [hr] at h
  · simp [hr] at h
  · simp [hr, send_mem_gateTrace] at h
  · simp [hr, send_mem_gateTrace] at h
  · rw [hr] at h
    simp only [send_mem_sendTrace, hd] at h
    exact absurd h.2 (by simp)
  · rw [hr] at h
    simp only [List.mem_append, send_mem_sendTrace, send_mem_readTrace, or_false, hd] at h
    have hresp : resp = resp1 := by simpa using h.2
    subst hresp
    refine ⟨c, hc, Or.inl ⟨e, hb, by rw [hr], by rw [hr], ?_⟩⟩
    intro r hmem
    rw [hr] at hmem
    simp only [List.mem_append, readAll_mem_sendTrace, readAll_mem_readTrace, false_or] at hmem
    rw [hmem, hb]
  · rw [hr] at h
    simp only [List.mem_append, send_mem_sendTrace, send_mem_readTrace, or_false, hd] at h
    have hresp : resp = resp1 := by simpa using h.2
    subst hresp
    refine ⟨c, hc, Or.inr ⟨body, hb, by rw [hr], by rw [hr], ?_⟩⟩
    intro r hmem
    rw [hr] at hmem
    simp only [List.mem_append, readAll_mem_sendTrace, readAll_mem_readTrace, false_or] at hmem
    rw [hmem, hb]

/-! ## The switch on the status code -/

theorem classify_success (wide : Bytes → Bytes × Nat) (status : Int) (body : Option Bytes)
    (h : status = 200 ∨ status = 201 ∨ status = 202) :
    classify wide status body = (body, none) := by
  unfold classify
  rw [if_pos h]

theorem classify_failure (wide : Bytes → Bytes × Nat) (status : Int) (body : Option Bytes)
    (h : ¬ (status = 200 ∨ status = 201 ∨ status = 202)) :
    (classify wide status body).1 = none ∧ (classify wide status body).2 ≠ none := by
  unfold classify
  rw [if_neg h]
  split
  · simp
  · split
    · simp
    · split <;> simp

theorem classify_unauthorized (wide : Bytes → Bytes × Nat) (body : Option Bytes) :
    classify wide 401 body =
      (none, some (.mk (ascii "HTTP status " ++ fmtInt 401 ++ ascii ": invalid credentials"))) := by
  simp [classify]

theorem classify_forbidden (wide : Bytes → Bytes × Nat) (body : Option Bytes) :
    classify wide 403 body =
      (none, some (.mk (ascii "HTTP status " ++ fmtInt 403 ++ ascii ": insufficient permissions"))) := by
  simp [classify]

theorem classify_server_error (wide : Bytes → Bytes × Nat) (status : Int) (body : Option Bytes)
    (h : 500 ≤ status) :
    classify wide status body =
      (none, some (.mk (ascii "HTTP status " ++ fmtInt status ++ ascii ": server error"))) := by
  unfold classify
  rw [if_neg (by omega), if_neg (by omega), if_neg (by omega), if_pos (by omega)]

theorem classify_unexpected (wide : Bytes → Bytes × Nat) (status : Int) (body : Option Bytes)
    (h : ¬ (status = 200 ∨ status = 201 ∨ status = 202)) (h401 : status ≠ 401)
    (h403 : status ≠ 403) (h500 : status < 500) :
    classify wide status body =
      (none, some (.mk (ascii "HTTP status " ++ fmtInt status ++ ascii ": content " ++
        fmtQuote wide (body.getD [])))) := by
  unfold classify
  rw [if_neg h, if_neg h401, if_neg h403, if_neg (by omega)]
  cases body <;> rfl

/-- A byte that `strconv.Quote` writes as it is: printable ASCII other than
the double quote and the backslash. -/
theorem escapeASCII_plain (b : Nat) (h : 32 ≤ b ∧ b ≤ 126 ∧ b ≠ 34 ∧ b ≠ 92) :
    escapeASCII b = [b] := by
  unfold escapeASCII
  rw [if_neg (by omega), if_pos ⟨h.1, h.2.1⟩]

theorem quoteLoop_plain (wide : Bytes → Bytes × Nat) (s : Bytes)
    (h : ∀ b ∈ s, 32 ≤ b ∧ b ≤ 126 ∧ b ≠ 34 ∧ b ≠ 92) : quoteLoop wide 0 s = s := by
  induction s with
  | nil => rfl
  | cons b rest ih =>
    have hb := h b (List.mem_cons_self b rest)
    have hrest := ih (fun x hx => h x (List.mem_cons_of_mem b hx))
    rw [quoteLoop, if_pos (by omega), escapeASCII_plain b hb, hrest]
    rfl

/-! ## Maps and headers -/

theorem GoMap.lookup_assign (m : GoMap) (k : String) (v : Slice) (x : String) :
    (m.assign k v).lookup x = if x = k then some v else m.lookup x := by
  unfold GoMap.assign GoMap.lookup
  by_cases hx : x = k
  · subst hx
    by_cases hm : x ∈ m.keys <;> simp [hm]
  · by_cases hm : k ∈ m.keys <;> simp [hm, hx]

theorem GoMap.lookup_foldl_assign (val : String → Slice) (ks : List String) (m : GoMap)
    (x : String) :
    (ks.foldl (fun h k => h.assign k (val k)) m).lookup x =
      if x ∈ ks then some (val x) else m.lookup x := by
  induction ks generalizing m with
  | nil => simp
  | cons k rest ih =>
    rw [List.foldl_cons, ih, GoMap.lookup_assign]
    by_cases hr : x ∈ rest
    · simp [hr]
    · by_cases hk : x = k
      · subst hk; simp
      · simp [hr, hk]

/-- The map `cloneHeader` builds binds every key to the slice the source map
binds it to, and holds no other key. -/
theorem cloneHeader_lookup (hp : Heap) (r : Option Nat) (x : String) :
    ((cloneHeader hp r).1.maps (cloneHeader hp r).2).lookup x = (hp.mapAt r).lookup x := by
  unfold cloneHeader Heap.allocMap
  simp only [if_true]
  rw [GoMap.lookup_foldl_assign]
  simp [GoMap.lookup, GoMap.empty]

theorem cloneHeader_addr (hp : Heap) (r : Option Nat) : (cloneHeader hp r).2 = hp.nextMap := rfl

theorem cloneHeader_maps (hp : Heap) (r : Option Nat) (a : Nat) (h : a ≠ hp.nextMap) :
    (cloneHeader hp r).1.maps a = hp.maps a := by
  simp [cloneHeader, Heap.allocMap, h]

theorem cloneHeader_arrays (hp : Heap) (r : Option Nat) :
    (cloneHeader hp r).1.arrays = hp.arrays ∧ (cloneHeader hp r).1.nextArr = hp.nextArr :=
  ⟨rfl, rfl⟩

theorem headerSet_maps_same (hp : Heap) (a : Nat) (key value : String) :
    (hp.headerSet a key value).maps a = (hp.maps a).assign key ⟨hp.nextArr, 0, 1⟩ := by
  simp [Heap.headerSet, Heap.mapAssign, Heap.allocSlice]

theorem headerSet_maps_other (hp : Heap) (a : Nat) (key value : String) (x : Nat) (h : x ≠ a) :
    (hp.headerSet a key value).maps x = hp.maps x := by
  simp [Heap.headerSet, Heap.mapAssign, Heap.allocSlice, h]

theorem headerSet_arrays_new (hp : Heap) (a : Nat) (key value : String) :
    (hp.headerSet a key value).arrays hp.nextArr = [value] := by
  simp [Heap.headerSet, Heap.mapAssign, Heap.allocSlice]

theorem headerSet_arrays_old (hp : Heap) (a : Nat) (key value : String) (y : Nat)
    (h : y ≠ hp.nextArr) : (hp.headerSet a key value).arrays y = hp.arrays y := by
  simp [Heap.headerSet, Heap.mapAssign, Heap.allocSlice, h]

theorem headerSet_nextArr (hp : Heap) (a : Nat) (key value : String) :
    (hp.headerSet a key value).nextArr = hp.nextArr + 1 := rfl

theorem headerSet_nextMap (hp : Heap) (a : Nat) (key value : String) :
    (hp.headerSet a key value).nextMap = hp.nextMap := rfl

theorem Heap.mapAt_some (hp : Heap) (a : Nat) : hp.mapAt (some a) = hp.maps a := rfl

theorem assembleHeader_addr (hp : Heap) (c : Client) : (assembleHeader hp c).2 = hp.nextMap := by
  unfold assembleHeader
  dsimp only
  split <;> rfl

theorem assembleHeader_maps (hp : Heap) (c : Client) (x : Nat) (h : x ≠ hp.nextMap) :
    (assembleHeader hp c).1.maps x = hp.maps x := by
  unfold assembleHeader
  dsimp only
  split
  · simp only [cloneHeader_addr]
    rw [headerSet_maps_other _ _ _ _ _ h, headerSet_maps_other _ _ _ _ _ h,
      cloneHeader_maps _ _ _ h]
  · simp only [cloneHeader_addr]
    rw [headerSet_maps_other _ _ _ _ _ h, cloneHeader_maps _ _ _ h]

theorem assembleHeader_arrays (hp : Heap) (c : Client) (y : Nat) (h : y < hp.nextArr) :
    (assembleHeader hp c).1.arrays y = hp.arrays y := by
  unfold assembleHeader
  dsimp only
  split
  · simp only [cloneHeader_addr]
    rw [headerSet_arrays_old, headerSet_arrays_old]
    · rfl
    · rw [(cloneHeader_arrays hp c.headers).2]; omega
    · rw [headerSet_nextArr, (cloneHeader_arrays hp c.headers).2]; omega
  · simp only [cloneHeader_addr]
    rw [headerSet_arrays_old]
    · rfl
    · rw [(cloneHeader_arrays hp c.headers).2]; omega

/-- The map of the assembled headers, key by key: the bearer slice under
`Authorization`, the slice of the default headers under every other key,
but for `Content-Type` when `Get` finds it empty. -/
theorem assembleHeader_lookup (hp : Heap) (c : Client) (x : String) :
    ((assembleHeader hp c).1.maps hp.nextMap).lookup x =
      if x = "Content-Type" ∧
          ((cloneHeader hp c.headers).1.headerSet hp.nextMap "Authorization"
            ("Bearer " ++ c.authentication.AccessToken)).headerGet (some hp.nextMap)
              "Content-Type" = "" then
        some ⟨hp.nextArr + 1, 0, 1⟩
      else if x = "Authorization" then some ⟨hp.nextArr, 0, 1⟩
      else (hp.mapAt c.headers).lookup x := by
  unfold assembleHeader
  dsimp only
  simp only [cloneHeader_addr]
  split
  · rename_i hget
    simp only [hget, and_true]
    rw [headerSet_maps_same, GoMap.lookup_assign, headerSet_maps_same, GoMap.lookup_assign,
      headerSet_nextArr, (cloneHeader_arrays hp c.headers).2]
    have := cloneHeader_lookup hp c.headers x
    rw [cloneHeader_addr] at this
    rw [this]
  · rename_i hget
    simp only [hget, and_false, if_false]
    rw [headerSet_maps_same, GoMap.lookup_assign, (cloneHeader_arrays hp c.headers).2]
    have := cloneHeader_lookup hp c.headers x
    rw [cloneHeader_addr] at this
    rw [this]

theorem holds_lookup (hp : Heap) (r : Option Nat) (h : hp.holds r) (x : String) (s : Slice)
    (hs : (hp.mapAt r).lookup x = some s) : s.arr < hp.nextArr := by
  unfold GoMap.lookup at hs
  split at hs
  · rename_i hm
    have := h.2 x hm
    simp only [Option.some.injEq] at hs
    rw [← hs]
    exact this
  · simp at hs

/-- The `Get` of `Content-Type` at line 56 reads what it would read from the
default headers. -/
theorem headerGet_after_authorization (hp : Heap) (c : Client) (h : hp.holds c.headers) :
    ((cloneHeader hp c.headers).1.headerSet hp.nextMap "Authorization"
      ("Bearer " ++ c.authentication.AccessToken)).headerGet (some hp.nextMap) "Content-Type" =
    hp.headerGet c.headers "Content-Type" := by
  unfold Heap.headerGet
  rw [Heap.mapAt_some, headerSet_maps_same, GoMap.lookup_assign, if_neg (by decide)]
  have := cloneHeader_lookup hp c.headers "Content-Type"
  rw [cloneHeader_addr] at this
  rw [this]
  cases hl : (hp.mapAt c.headers).lookup "Content-Type" with
  | none => rfl
  | some s =>
    have hs := holds_lookup hp c.headers h _ s hl
    dsimp only
    rw [headerSet_arrays_old]
    · rfl
    · rw [(cloneHeader_arrays hp c.headers).2]; omega

theorem assembleHeader_arrays_bearer (hp : Heap) (c : Client) :
    (assembleHeader hp c).1.arrays hp.nextArr = ["Bearer " ++ c.authentication.AccessToken] := by
  unfold assembleHeader
  dsimp only
  split
  · rw [headerSet_arrays_old, cloneHeader_addr]
    · exact headerSet_arrays_new (cloneHeader hp c.headers).1 _ _ _
    · rw [headerSet_nextArr, (cloneHeader_arrays hp c.headers).2]; omega
  · exact headerSet_arrays_new (cloneHeader hp c.headers).1 _ _ _

theorem assembleHeader_arrays_json (hp : Heap) (c : Client)
    (h : ((cloneHeader hp c.headers).1.headerSet hp.nextMap "Authorization"
      ("Bearer " ++ c.authentication.AccessToken)).headerGet (some hp.nextMap) "Content-Type" = "") :
    (assembleHeader hp c).1.arrays (hp.nextArr + 1) = ["application/json"] := by
  unfold assembleHeader
  dsimp only
  rw [cloneHeader_addr, if_pos h]
  exact headerSet_arrays_new _ _ _ _

theorem elems_of_arrays (hp hp1 : Heap) (s : Slice) (h : hp1.arrays s.arr = hp.arrays s.arr) :
    hp1.elems s = hp.elems s := by
  unfold Heap.elems
  rw [h]

/-- The headers `request` assembles, as a reader sees them. -/
theorem assembleHeader_header (hp : Heap) (c : Client) (h : hp.holds c.headers) :
    (∀ k, k ≠ "Authorization" → k ≠ "Content-Type" →
      (assembleHeader hp c).1.header (some hp.nextMap) k = hp.header c.headers k) ∧
    (assembleHeader hp c).1.header (some hp.nextMap) "Authorization" =
      some ["Bearer " ++ c.authentication.AccessToken] ∧
    (assembleHeader hp c).1.header (some hp.nextMap) "Content-Type" =
      if hp.headerGet c.headers "Content-Type" = "" then some ["application/json"]
      else hp.header c.headers "Content-Type" := by
  have hold : ∀ k s, (hp.mapAt c.headers).lookup k = some s →
      (assembleHeader hp c).1.elems s = hp.elems s := fun k s hs =>
    elems_of_arrays _ _ _ (assembleHeader_arrays hp c s.arr (holds_lookup hp c.headers h k s hs))
  refine ⟨?_, ?_, ?_⟩
  · intro k hka hkc
    unfold Heap.header
    rw [Heap.mapAt_some, assembleHeader_lookup, if_neg (fun hh => hkc hh.1), if_neg hka]
    cases hl : (hp.mapAt c.headers).lookup k with
    | none => rfl
    | some s => simp only [Option.map_some', hold k s hl]
  · unfold Heap.header
    rw [Heap.mapAt_some, assembleHeader_lookup, if_neg (fun hh => absurd hh.1 (by decide)),
      if_pos rfl]
    simp only [Option.map_some', Heap.elems, assembleHeader_arrays_bearer]
    rfl
  · unfold Heap.header
    rw [Heap.mapAt_some, assembleHeader_lookup, ← headerGet_after_authorization hp c h]
    by_cases hget : ((cloneHeader hp c.headers).1.headerSet hp.nextMap "Authorization"
        ("Bearer " ++ c.authentication.AccessToken)).headerGet (some hp.nextMap)
          "Content-Type" = ""
    · rw [if_pos ⟨rfl, hget⟩, if_pos hget]
      simp only [Option.map_some', Heap.elems, assembleHeader_arrays_json hp c hget]
      rfl
    · rw [if_neg (fun hh => hget hh.2), if_neg (by decide), if_neg hget]
      cases hl : (hp.mapAt c.headers).lookup "Content-Type" with
      | none => rfl
      | some s => simp only [Option.map_some', hold _ s hl]

theorem assembleHeader_nextArr (hp : Heap) (c : Client) :
    hp.nextArr ≤ (assembleHeader hp c).1.nextArr := by
  unfold assembleHeader
  dsimp only
  split
  · rw [headerSet_nextArr, headerSet_nextArr, (cloneHeader_arrays hp c.headers).2]; omega
  · rw [headerSet_nextArr, (cloneHeader_arrays hp c.headers).2]; omega

/-- A heap that agrees with `hp` on the map at `a` and on the arrays allocated
in `hp` shows the same header at `a`. -/
theorem header_frame (hp hp1 : Heap) (a : Nat) (h : hp.holds (some a))
    (hm : hp1.maps a = hp.maps a) (ha : ∀ y, y < hp.nextArr → hp1.arrays y = hp.arrays y)
    (k : String) : hp1.header (some a) k = hp.header (some a) k := by
  unfold Heap.header
  rw [Heap.mapAt_some, Heap.mapAt_some, hm]
  cases hl : (hp.maps a).lookup k with
  | none => rfl
  | some s =>
    have hs := holds_lookup hp (some a) h k s hl
    simp only [Option.map_some', elems_of_arrays hp hp1 s (ha s.arr hs)]

/-! ## The claims -/

/-- C1: for every method, path and payload, when the organization has a bound
client, the transport answers with the response `resp` (dispatch succeeds),
reading the body of `resp` to its end gives `body` without error, and the
status is 200, 201 or 202, `request` returns exactly `body`, the bytes of the
body of the response, and a nil error, whatever the body holds, the empty body
included.  A verbose client dumps the response before the body is read: there
`DumpResponse` is taken to do what `httputil` says of it, to put the body
back as it was. -/
theorem request_success_returns_body {P : Type} (env : Env P) (hp : Heap) (o : Organization)
    (method path : String) (params : Option P) (c : Client) (req : Request) (resp : Response)
    (body : Option Bytes) (hc : o.client = some c)
    (hsend : Event.send req (.ok resp) ∈ (o.request env hp method path params).trace)
    (hbody : resp.Body = .ok body)
    (hdump : c.verbose = true → (env.DumpResponse resp).2 = resp.Body)
    (hstatus : resp.StatusCode = 200 ∨ resp.StatusCode = 201 ∨ resp.StatusCode = 202) :
    (o.request env hp method path params).body = body ∧
      (o.request env hp method path params).err = none := by
  obtain ⟨c1, hc1, hcase⟩ := results_of_response env hp o method path params req resp hsend
  have hcc : c1 = c := by
    rw [hc] at hc1
    exact (Option.some.inj hc1).symm
  subst hcc
  have hstream : bodyStream env c1 resp = .ok body := by
    unfold bodyStream
    by_cases hv : c1.verbose = true
    · rw [if_pos hv, hdump hv, hbody]
    · rw [if_neg hv, hbody]
  rcases hcase with ⟨e, he, _, _, _⟩ | ⟨b, hb, hres, herr, _⟩
  · rw [hstream] at he
    exact absurd he (by simp)
  · rw [hstream] at hb
    have hbb : body = b := by simpa using hb
    subst hbb
    rw [hres, herr, classify_success env.wide resp.StatusCode body hstatus]
    exact ⟨rfl, rfl⟩

/-- Witness of C1: a verbose client and status 201 with the body `ok` give
the two bytes of `ok` and no error; a quiet client and status 200 with the
empty body give the empty body and no error. -/
theorem request_success_returns_body_witness :
    (((stubOrg none true).request (stubEnv 201 [111, 107]) emptyHeap "POST" "/builds"
        (some 7)).body = some [111, 107] ∧
      ((stubOrg none true).request (stubEnv 201 [111, 107]) emptyHeap "POST" "/builds"
        (some 7)).err = none) ∧
    (((stubOrg none false).request (stubEnv 200 []) emptyHeap "GET" "/projects" none).body =
        some [] ∧
      ((stubOrg none false).request (stubEnv 200 []) emptyHeap "GET" "/projects" none).err =
        none) :=
  ⟨request_success_returns_body (stubEnv 201 [111, 107]) emptyHeap (stubOrg none true) "POST"
      "/builds" (some 7) ⟨"https://api.codeship.com/v2", none, true, ⟨"tok", 0⟩⟩
      ⟨"POST", "https://api.codeship.com/v2/builds", some [55, 10], 0⟩
      ⟨201, .ok (some [111, 107])⟩ (some [111, 107]) (by decide) (by decide) rfl
      (fun _ => rfl) (by decide),
    request_success_returns_body (stubEnv 200 []) emptyHeap (stubOrg none false) "GET"
      "/projects" none ⟨"https://api.codeship.com/v2", none, false, ⟨"tok", 0⟩⟩
      ⟨"GET", "https://api.codeship.com/v2/projects", none, 0⟩ ⟨200, .ok (some [])⟩ (some [])
      (by decide) (by decide) rfl (fun _ => rfl) (by decide)⟩

/-- C2: whenever the transport answers with a status other than 200, 201 and
202, whatever the body of the response, `request` returns nil bytes and a
non-nil error; and a call that returns no error had a response of the
transport with status 200, 201 or 202. -/
theorem request_failure_outside_success_set {P : Type} (env : Env P) (hp : Heap)
    (o : Organization) (method path : String) (params : Option P) :
    (∀ req resp, Event.send req (.ok resp) ∈ (o.request env hp method path params).trace →
      ¬ (resp.StatusCode = 200 ∨ resp.StatusCode = 201 ∨ resp.StatusCode = 202) →
      (o.request env hp method path params).body = none ∧
        (o.request env hp method path params).err ≠ none) ∧
    ((o.request env hp method path params).err = none →
      ∃ req resp, Event.send req (.ok resp) ∈ (o.request env hp method path params).trace ∧
        (resp.StatusCode = 200 ∨ resp.StatusCode = 201 ∨ resp.StatusCode = 202)) := by
  constructor
  · intro req resp hsend hstatus
    obtain ⟨c1, _, hcase⟩ := results_of_response env hp o method path params req resp hsend
    rcases hcase with ⟨e, _, hbody, herr, _⟩ | ⟨b, _, hbody, herr, _⟩
    · rw [hbody, herr]; simp
    · rw [hbody, herr]
      exact classify_failure env.wide resp.StatusCode b hstatus
  · intro hnone
    rcases request_cases env hp o method path params with
      ⟨_, hr⟩ | ⟨c, e, _, _, hr⟩ | ⟨c, b, e, _, _, _, hr⟩ | ⟨c, b, e, _, _, _, _, hr⟩ |
      ⟨c, b, e, _, _, _, _, _, hr⟩ | ⟨c, b, resp, e, _, _, _, _, _, _, hr⟩ |
      ⟨c, b, resp, body, _, _, _, _, hd, _, hr⟩
    · simp [hr] at hnone
    · simp [hr] at hnone
    · simp [hr] at hnone
    · simp [hr] at hnone
    · simp [hr] at hnone
    · simp [hr] at hnone
    · rw [hr] at hnone ⊢
      refine ⟨outgoing env hp c method path b, resp, ?_, ?_⟩
      · simp [send_mem_sendTrace, hd]
      · by_contra hstatus
        exact (classify_failure env.wide resp.StatusCode body hstatus).2 hnone

/-- Witness of C2: status 204 with a well-formed JSON body is no success. -/
theorem request_failure_outside_success_set_witness :
    ((stubOrg none false).request (stubEnv 204 (ascii "[]")) emptyHeap "GET" "/projects"
        none).body = none ∧
      ((stubOrg none false).request (stubEnv 204 (ascii "[]")) emptyHeap "GET" "/projects"
        none).err ≠ none :=
  (request_failure_outside_success_set (stubEnv 204 (ascii "[]")) emptyHeap (stubOrg none false)
    "GET" "/projects" none).1 ⟨"GET", "https://api.codeship.com/v2/projects", none, 0⟩
    ⟨204, .ok (some (ascii "[]"))⟩ (by decide) (by decide)

/-- C3: for every body read from the response, status 401 makes `request`
return the invalid-credentials error, status 403 the insufficient-permissions
error and every status from 500 on the server error; each message holds the
decimal status code, and the message for a status from 500 on is a function
of the status alone (the body is not in it). -/
theorem request_status_errors {P : Type} (env : Env P) (hp : Heap) (o : Organization)
    (method path : String) (params : Option P) (req : Request) (resp : Response)
    (body : Option Bytes)
    (hsend : Event.send req (.ok resp) ∈ (o.request env hp method path params).trace)
    (hread : Event.readAll (.ok body) ∈ (o.request env hp method path params).trace) :
    (resp.StatusCode = 401 →
      (o.request env hp method path params).body = none ∧
      (o.request env hp method path params).err =
        some (.mk (ascii "HTTP status 401: invalid credentials"))) ∧
    (resp.StatusCode = 403 →
      (o.request env hp method path params).body = none ∧
      (o.request env hp method path params).err =
        some (.mk (ascii "HTTP status 403: insufficient permissions"))) ∧
    (500 ≤ resp.StatusCode →
      (o.request env hp method path params).body = none ∧
      (o.request env hp method path params).err =
        some (.mk (ascii "HTTP status " ++ fmtInt resp.StatusCode ++ ascii ": server error"))) ∧
    (resp.StatusCode = 401 ∨ resp.StatusCode = 403 ∨ 500 ≤ resp.StatusCode →
      ∃ e, (o.request env hp method path params).err = some e ∧
        fmtInt resp.StatusCode <:+: e.Error) := by
  obtain ⟨c1, _, hcase⟩ := results_of_response env hp o method path params req resp hsend
  rcases hcase with ⟨e, _, _, _, hall⟩ | ⟨b, _, hbody, herr, _⟩
  · exact absurd (hall _ hread) (by simp)
  · have h401 : resp.StatusCode = 401 →
        (o.request env hp method path params).body = none ∧
        (o.request env hp method path params).err =
          some (.mk (ascii "HTTP status 401: invalid credentials")) := by
      intro hs
      rw [hbody, herr, hs, classify_unauthorized]
      exact ⟨rfl, by decide⟩
    have h403 : resp.StatusCode = 403 →
        (o.request env hp method path params).body = none ∧
        (o.request env hp method path params).err =
          some (.mk (ascii "HTTP status 403: insufficient permissions")) := by
      intro hs
      rw [hbody, herr, hs, classify_forbidden]
      exact ⟨rfl, by decide⟩
    have h500 : 500 ≤ resp.StatusCode →
        (o.request env hp method path params).body = none ∧
        (o.request env hp method path params).err =
          some (.mk (ascii "HTTP status " ++ fmtInt resp.StatusCode ++
            ascii ": server error")) := by
      intro hs
      rw [hbody, herr, classify_server_error env.wide resp.StatusCode b hs]
      exact ⟨rfl, rfl⟩
    refine ⟨h401, h403, h500, ?_⟩
    rintro (hs | hs | hs)
    · refine ⟨_, (h401 hs).2, ?_⟩
      rw [hs]
      decide
    · refine ⟨_, (h403 hs).2, ?_⟩
      rw [hs]
      decide
    · exact ⟨_, (h500 hs).2, ascii "HTTP status ", ascii ": server error", rfl⟩

/-- Witness of C3: status 503 gives the server error, whose message holds
`503` and nothing of the body. -/
theorem request_status_errors_witness :
    ((stubOrg none false).request (stubEnv 503 (ascii "secret")) emptyHeap "GET" "/projects"
        none).body = none ∧
      ((stubOrg none false).request (stubEnv 503 (ascii "secret")) emptyHeap "GET" "/projects"
        none).err = some (.mk (ascii "HTTP status " ++ fmtInt 503 ++ ascii ": server error")) :=
  (request_status_errors (stubEnv 503 (ascii "secret")) emptyHeap (stubOrg none false) "GET"
    "/projects" none ⟨"GET", "https://api.codeship.com/v2/projects", none, 0⟩
    ⟨503, .ok (some (ascii "secret"))⟩ (some (ascii "secret")) (by decide) (by decide)).2.2.1
    (by decide)

/-- C4, as the code has it: for every status that is not 200, 201, 202, 401 or
403 and is below 500, and every body read from the response, `request` returns
nil bytes and the unexpected-status error, whose message is `HTTP status `,
the decimal status code, `: content ` and the body in the quoted form of the
verb `%q`.  The message holds the decimal status code and the quoted body; it
holds the text of the body as it is when every byte of the body is printable
ASCII other than the double quote and the backslash. -/
theorem request_unexpected_status {P : Type} (env : Env P) (hp : Heap) (o : Organization)
    (method path : String) (params : Option P) (req : Request) (resp : Response)
    (body : Option Bytes)
    (hsend : Event.send req (.ok resp) ∈ (o.request env hp method path params).trace)
    (hread : Event.readAll (.ok body) ∈ (o.request env hp method path params).trace)
    (hstatus : ¬ (resp.StatusCode = 200 ∨ resp.StatusCode = 201 ∨ resp.StatusCode = 202))
    (h401 : resp.StatusCode ≠ 401) (h403 : resp.StatusCode ≠ 403)
    (h500 : resp.StatusCode < 500) :
    (o.request env hp method path params).body = none ∧
    ∃ msg, (o.request env hp method path params).err = some (.mk msg) ∧
      msg = ascii "HTTP status " ++ fmtInt resp.StatusCode ++ ascii ": content " ++
        fmtQuote env.wide (body.getD []) ∧
      fmtInt resp.StatusCode <:+: msg ∧
      fmtQuote env.wide (body.getD []) <:+: msg ∧
      ((∀ b ∈ body.getD [], 32 ≤ b ∧ b ≤ 126 ∧ b ≠ 34 ∧ b ≠ 92) → body.getD [] <:+: msg) := by
  obtain ⟨c1, _, hcase⟩ := results_of_response env hp o method path params req resp hsend
  rcases hcase with ⟨e, _, _, _, hall⟩ | ⟨b, _, hbody, herr, hall⟩
  · exact absurd (hall _ hread) (by simp)
  · have hb : body = b := by simpa using hall _ hread
    subst hb
    rw [hbody, herr, classify_unexpected env.wide resp.StatusCode body hstatus h401 h403 h500]
    refine ⟨rfl, _, rfl, rfl, ?_, ?_, ?_⟩
    · exact ⟨ascii "HTTP status ", ascii ": content " ++ fmtQuote env.wide (body.getD []),
        by simp⟩
    · exact ⟨ascii "HTTP status " ++ fmtInt resp.StatusCode ++ ascii ": content ", [],
        by simp⟩
    · intro hplain
      refine ⟨ascii "HTTP status " ++ fmtInt resp.StatusCode ++ ascii ": content " ++ [34],
        [34], ?_⟩
      unfold fmtQuote
      rw [quoteLoop_plain env.wide _ hplain]
      simp

/-- Witness of C4, as the code has it: status 418 with the body `teapot` gives
a message that holds `418` and `teapot`. -/
theorem request_unexpected_status_witness :
    ∃ msg, ((stubOrg none false).request (stubEnv 418 (ascii "teapot")) emptyHeap "GET"
        "/projects" none).err = some (.mk msg) ∧
      ascii "418" <:+: msg ∧ ascii "teapot" <:+: msg := by
  obtain ⟨_, msg, herr, _, hcode, _, htext⟩ :=
    request_unexpected_status (stubEnv 418 (ascii "teapot")) emptyHeap (stubOrg none false) "GET"
      "/projects" none ⟨"GET", "https://api.codeship.com/v2/projects", none, 0⟩
      ⟨418, .ok (some (ascii "teapot"))⟩ (some (ascii "teapot")) (by decide) (by decide)
      (by decide) (by decide) (by decide) (by decide)
  exact ⟨msg, herr, hcode, htext (by decide)⟩

/-- Counterexample to C4 as stated: at status 418 with the three-byte body
`a"b`, the message ends with the quoted form of the body, in which the double
quote is backslashed, and the text of the body is nowhere in it. -/
theorem unexpected_status_body_escaped :
    ((stubOrg none false).request (stubEnv 418 [97, 34, 98]) emptyHeap "GET" "/projects"
        none).err =
      some (.mk (ascii "HTTP status 418: content " ++ [34, 97, 92, 34, 98, 34])) ∧
    ¬ ([97, 34, 98] <:+: ascii "HTTP status 418: content " ++ [34, 97, 92, 34, 98, 34]) := by
  constructor <;> decide

/-- C5: for every method, path and payload, when the organization has no
client, `request` returns nil bytes and the error `client not instantiated`,
and calls no collaborator: no encoder, no credential manager, no transport. -/
theorem request_without_client {P : Type} (env : Env P) (hp : Heap) (o : Organization)
    (method path : String) (params : Option P) (hc : o.client = none) :
    (o.request env hp method path params).body = none ∧
    (o.request env hp method path params).err = some (.mk (ascii "client not instantiated")) ∧
    (o.request env hp method path params).trace = [] := by
  unfold Organization.request
  rw [hc]
  exact ⟨rfl, rfl, rfl⟩

/-- Witness of C5: an organization with no client, a payload at hand. -/
theorem request_without_client_witness :
    (orphanOrg.request (stubEnv 200 []) emptyHeap "POST" "/builds" (some 7)).body = none ∧
    (orphanOrg.request (stubEnv 200 []) emptyHeap "POST" "/builds" (some 7)).err =
      some (.mk (ascii "client not instantiated")) ∧
    (orphanOrg.request (stubEnv 200 []) emptyHeap "POST" "/builds" (some 7)).trace = [] :=
  request_without_client (stubEnv 200 []) emptyHeap orphanOrg "POST" "/builds" (some 7) rfl

/-- C6: on an organization with a client, when the payload is absent or
encodes, `AuthenticationRequired` says true and `Authenticate` fails with the
cause `e`, `request` returns nil bytes and the error `authentication failed`
that wraps `e`; the transport is not called, and `Authenticate` is called
once. -/
theorem request_authentication_failure {P : Type} (env : Env P) (hp : Heap) (o : Organization)
    (method path : String) (params : Option P) (c : Client) (reqBody : Option Bytes)
    (e : GoError) (hc : o.client = some c) (henc : encodeParams env params = .ok reqBody)
    (hreq : env.AuthenticationRequired c = true) (hauth : (env.Authenticate c).2 = some e) :
    (o.request env hp method path params).body = none ∧
    (o.request env hp method path params).err = some (.wrap e (ascii "authentication failed")) ∧
    (o.request env hp method path params).trace.countP Event.isSend = 0 ∧
    (o.request env hp method path params).trace.countP Event.isAuthenticate = 1 := by
  have hgate : (authGate env c).2 = some e := by
    unfold authGate
    rw [if_pos hreq, hauth]
  unfold Organization.request
  simp only [hc, henc, hgate]
  refine ⟨trivial, trivial, ?_, ?_⟩
  · unfold gateTrace
    rw [if_pos hreq]
    split <;> rfl
  · unfold gateTrace
    rw [if_pos hreq]
    split <;> rfl

/-- Witness of C6: a client with no token, whose authentication fails. -/
theorem request_authentication_failure_witness :
    (staleOrg.request (stubEnv 200 []) emptyHeap "GET" "/projects" none).body = none ∧
    (staleOrg.request (stubEnv 200 []) emptyHeap "GET" "/projects" none).err =
      some (.wrap (.mk (ascii "unable to authenticate")) (ascii "authentication failed")) ∧
    (staleOrg.request (stubEnv 200 []) emptyHeap "GET" "/projects" none).trace.countP
      Event.isSend = 0 ∧
    (staleOrg.request (stubEnv 200 []) emptyHeap "GET" "/projects" none).trace.countP
      Event.isAuthenticate = 1 :=
  request_authentication_failure (stubEnv 200 []) emptyHeap staleOrg "GET" "/projects" none
    ⟨"", none, false, ⟨"", 0⟩⟩ none (.mk (ascii "unable to authenticate")) rfl rfl
    (by decide) (by decide)

/-- C7: on an organization with a client, for every payload the encoder
refuses with the cause `e`, `request` returns nil bytes and the error `e` of
the encoder itself; the encoder is the only collaborator called, so no request
reaches the transport. -/
theorem request_encoding_failure {P : Type} (env : Env P) (hp : Heap) (o : Organization)
    (method path : String) (params : Option P) (c : Client) (p : P) (e : GoError)
    (hc : o.client = some c) (hparams : params = some p) (henc : env.jsonEncode p = .error e) :
    (o.request env hp method path params).body = none ∧
    (o.request env hp method path params).err = some e ∧
    (o.request env hp method path params).trace = [Event.encode] ∧
    (o.request env hp method path params).trace.countP Event.isSend = 0 := by
  have hbody : encodeParams env params = .error e := by
    unfold encodeParams
    rw [hparams]
    simp only [henc]
  unfold Organization.request
  simp only [hc, hbody]
  exact ⟨trivial, trivial, trivial, rfl⟩

/-- Witness of C7: the payload 0, which the stub encoder refuses. -/
theorem request_encoding_failure_witness :
    ((stubOrg none false).request (stubEnv 200 []) emptyHeap "POST" "/builds" (some 0)).body =
      none ∧
    ((stubOrg none false).request (stubEnv 200 []) emptyHeap "POST" "/builds" (some 0)).err =
      some (.mk (ascii "json: unsupported value")) ∧
    ((stubOrg none false).request (stubEnv 200 []) emptyHeap "POST" "/builds" (some 0)).trace =
      [Event.encode] ∧
    ((stubOrg none false).request (stubEnv 200 []) emptyHeap "POST" "/builds"
      (some 0)).trace.countP Event.isSend = 0 :=
  request_encoding_failure (stubEnv 200 []) emptyHeap (stubOrg none false) "POST" "/builds"
    (some 0) ⟨"https://api.codeship.com/v2", none, false, ⟨"tok", 0⟩⟩ 0
    (.mk (ascii "json: unsupported value")) rfl rfl (by decide)

/-- C10: for every method and path, the request handed to the transport has
no body reader, hence a body of zero bytes (not the two bytes of an empty JSON
object), when the payload is nil, and has as its body exactly the bytes the
JSON encoder wrote for the payload when there is one. -/
theorem request_body_sent {P : Type} (env : Env P) (hp : Heap) (o : Organization)
    (method path : String) (params : Option P) (req : Request)
    (res : Except GoError Response)
    (hsend : Event.send req res ∈ (o.request env hp method path params).trace) :
    (params = none → req.Body = none ∧ req.bodyBytes = [] ∧ req.bodyBytes ≠ [123, 125]) ∧
    (∀ p, params = some p →
      env.jsonEncode p = .ok req.bodyBytes ∧ req.Body = some req.bodyBytes) := by
  obtain ⟨c, reqBody, _, henc, _, _, hreq, _, _, _⟩ :=
    send_mem_trace env hp o method path params req res hsend
  have hb : req.Body = reqBody := by rw [hreq]; rfl
  constructor
  · intro hnil
    rw [hnil] at henc
    have : reqBody = none := by
      unfold encodeParams at henc
      simpa using henc.symm
    rw [this] at hb
    simp [Request.bodyBytes, hb]
  · intro p hsome
    rw [hsome] at henc
    unfold encodeParams at henc
    cases hj : env.jsonEncode p with
    | error e => simp [hj] at henc
    | ok buf =>
      simp only [hj, Except.ok.injEq] at henc
      rw [← henc] at hb
      simp [Request.bodyBytes, hb]

/-- Witness of C10: with a nil payload the transport is handed a request with
no body, and with the payload 7 one whose body is what the stub encoder
writes for it. -/
theorem request_body_sent_witness :
    (⟨"GET", "https://api.codeship.com/v2/projects", none, 0⟩ : Request).bodyBytes = [] ∧
    (stubEnv 200 []).jsonEncode 7 =
      .ok (⟨"POST", "https://api.codeship.com/v2/builds", some [55, 10], 0⟩ :
        Request).bodyBytes :=
  ⟨((request_body_sent (stubEnv 200 []) emptyHeap (stubOrg none false) "GET" "/projects" none
      ⟨"GET", "https://api.codeship.com/v2/projects", none, 0⟩ (.ok ⟨200, .ok (some [])⟩)
      (by decide)).1 rfl).2.1,
   ((request_body_sent (stubEnv 200 []) emptyHeap (stubOrg none false) "POST" "/builds" (some 7)
      ⟨"POST", "https://api.codeship.com/v2/builds", some [55, 10], 0⟩
      (.ok ⟨200, .ok (some [])⟩) (by decide)).2 7 rfl).1⟩

/-- C8, as the code has it: in the request handed to the transport, every
default header of the client other than `Authorization` and `Content-Type` is
as in the defaults; `Authorization` is the single value `Bearer ` followed by
the access token the client has after the authentication gate, whatever the
defaults hold under that key; `Content-Type` is the single value
`application/json` when `Get` finds no first value or an empty first value
under `Content-Type` in the defaults, and is as in the defaults otherwise. -/
theorem request_headers_sent {P : Type} (env : Env P) (hp : Heap) (o : Organization)
    (method path : String) (params : Option P) (c : Client) (req : Request)
    (res : Except GoError Response) (hc : o.client = some c) (hwf : hp.holds c.headers)
    (hsend : Event.send req res ∈ (o.request env hp method path params).trace) :
    (o.request env hp method path params).client = some (gateClient env c) ∧
    res = env.Do (o.request env hp method path params).heap req ∧
    (∀ k, k ≠ "Authorization" → k ≠ "Content-Type" →
      (o.request env hp method path params).heap.header (some req.Header) k =
        hp.header c.headers k) ∧
    (o.request env hp method path params).heap.header (some req.Header) "Authorization" =
      some ["Bearer " ++ (gateClient env c).authentication.AccessToken] ∧
    (o.request env hp method path params).heap.header (some req.Header) "Content-Type" =
      if hp.headerGet c.headers "Content-Type" = "" then some ["application/json"]
      else hp.header c.headers "Content-Type" := by
  obtain ⟨c1, reqBody, hc1, _, _, _, hreq, hres, hheap, hclient⟩ :=
    send_mem_trace env hp o method path params req res hsend
  have hcc : c1 = c := by
    rw [hc] at hc1
    exact (Option.some.inj hc1).symm
  subst hcc
  have haddr : req.Header = hp.nextMap := by
    rw [hreq]
    exact assembleHeader_addr hp (gateClient env c1)
  obtain ⟨hother, hauth, hctype⟩ := assembleHeader_header hp (gateClient env c1) hwf
  rw [hheap, haddr]
  refine ⟨hclient, ?_, hother, hauth, hctype⟩
  rw [hres, hreq]

/-- Witness of C8, as the code has it: defaults with a custom header, a
content type and a basic authorization. -/
theorem request_headers_sent_witness :
    ((stubOrg (some 0) false).request (stubEnv 200 [])
        (headerHeap [("X-Trace", ["on"]), ("Content-Type", ["text/plain"]),
          ("Authorization", ["Basic abc"])]) "GET" "/projects" none).heap.header (some 1)
        "X-Trace" = some ["on"] ∧
    ((stubOrg (some 0) false).request (stubEnv 200 [])
        (headerHeap [("X-Trace", ["on"]), ("Content-Type", ["text/plain"]),
          ("Authorization", ["Basic abc"])]) "GET" "/projects" none).heap.header (some 1)
        "Authorization" = some ["Bearer tok"] ∧
    ((stubOrg (some 0) false).request (stubEnv 200 [])
        (headerHeap [("X-Trace", ["on"]), ("Content-Type", ["text/plain"]),
          ("Authorization", ["Basic abc"])]) "GET" "/projects" none).heap.header (some 1)
        "Content-Type" = some ["text/plain"] := by
  obtain ⟨_, _, hother, hauth, hctype⟩ :=
    request_headers_sent (stubEnv 200 [])
      (headerHeap [("X-Trace", ["on"]), ("Content-Type", ["text/plain"]),
        ("Authorization", ["Basic abc"])]) (stubOrg (some 0) false) "GET" "/projects" none
      ⟨"https://api.codeship.com/v2", some 0, false, ⟨"tok", 0⟩⟩
      ⟨"GET", "https://api.codeship.com/v2/projects", none, 1⟩ (.ok ⟨200, .ok (some [])⟩)
      rfl (by decide) (by decide)
  exact ⟨(hother "X-Trace" (by decide) (by decide)).trans (by decide),
    hauth.trans (by decide), hctype.trans (by decide)⟩

/-- Counterexample to C8 as stated: with the default `Content-Type` set to the
empty string, and with the default values `""` and `text/plain`, the defaults
carry a `Content-Type`, and the request sent has `application/json` in its
place. -/
theorem content_type_overwritten :
    ((headerHeap [("Content-Type", [""])]).header (some 0) "Content-Type" = some [""] ∧
      Event.send ⟨"GET", "https://api.codeship.com/v2/projects", none, 1⟩
          (.ok ⟨200, .ok (some [])⟩) ∈
        ((stubOrg (some 0) false).request (stubEnv 200 []) (headerHeap [("Content-Type", [""])])
          "GET" "/projects" none).trace ∧
      ((stubOrg (some 0) false).request (stubEnv 200 []) (headerHeap [("Content-Type", [""])])
        "GET" "/projects" none).heap.header (some 1) "Content-Type" =
          some ["application/json"]) ∧
    ((headerHeap [("Content-Type", ["", "text/plain"])]).header (some 0) "Content-Type" =
        some ["", "text/plain"] ∧
      Event.send ⟨"GET", "https://api.codeship.com/v2/projects", none, 1⟩
          (.ok ⟨200, .ok (some [])⟩) ∈
        ((stubOrg (some 0) false).request (stubEnv 200 [])
          (headerHeap [("Content-Type", ["", "text/plain"])]) "GET" "/projects" none).trace ∧
      ((stubOrg (some 0) false).request (stubEnv 200 [])
        (headerHeap [("Content-Type", ["", "text/plain"])]) "GET" "/projects"
          none).heap.header (some 1) "Content-Type" = some ["application/json"]) := by
  decide

/-- C9, as the code has it: the headers of the request handed to the transport
are a shallow copy of the default headers of the client, made by
`cloneHeader`: a map of its own (another address) in which every key of the
defaults that `request` does not write is bound to the very slice the
defaults bind it to, and so is `Content-Type` when `Get` finds it non-empty
in the defaults; a key the defaults do not hold, other than the two `request`
writes, is not in it.  The call leaves every map and every backing array that
was on the heap as it was, so the defaults read as before the call; and a
later write to the map of the request (binding a key to a slice, deleting a
key, `Set`) leaves the defaults as they were. -/
theorem request_keeps_default_headers {P : Type} (env : Env P) (hp : Heap) (o : Organization)
    (method path : String) (params : Option P) (c : Client) (a : Nat) (req : Request)
    (res : Except GoError Response) (hc : o.client = some c) (hh : c.headers = some a)
    (hwf : hp.holds c.headers)
    (hsend : Event.send req res ∈ (o.request env hp method path params).trace) :
    req.Header ≠ a ∧
    (cloneHeader hp c.headers).2 = req.Header ∧
    (∀ k, ((cloneHeader hp c.headers).1.maps req.Header).lookup k = (hp.maps a).lookup k) ∧
    (∀ k, k ≠ "Authorization" → k ≠ "Content-Type" →
      ((o.request env hp method path params).heap.maps req.Header).lookup k =
        (hp.maps a).lookup k) ∧
    (hp.headerGet c.headers "Content-Type" ≠ "" →
      ((o.request env hp method path params).heap.maps req.Header).lookup "Content-Type" =
        (hp.maps a).lookup "Content-Type") ∧
    (∀ x, x < hp.nextMap → (o.request env hp method path params).heap.maps x = hp.maps x) ∧
    (∀ y, y < hp.nextArr →
      (o.request env hp method path params).heap.arrays y = hp.arrays y) ∧
    (∀ k, (o.request env hp method path params).heap.header (some a) k =
      hp.header (some a) k) ∧
    (∀ k v k1, ((o.request env hp method path params).heap.mapAssign req.Header k v).header
      (some a) k1 = hp.header (some a) k1) ∧
    (∀ k k1, ((o.request env hp method path params).heap.mapDelete req.Header k).header
      (some a) k1 = hp.header (some a) k1) ∧
    (∀ k value k1, ((o.request env hp method path params).heap.headerSet req.Header k
      value).header (some a) k1 = hp.header (some a) k1) := by
  obtain ⟨c1, reqBody, hc1, _, _, _, hreq, _, hheap, _⟩ :=
    send_mem_trace env hp o method path params req res hsend
  have hcc : c1 = c := by
    rw [hc] at hc1
    exact (Option.some.inj hc1).symm
  subst hcc
  have haddr : req.Header = hp.nextMap := by
    rw [hreq]
    exact assembleHeader_addr hp (gateClient env c1)
  have hget := headerGet_after_authorization hp (gateClient env c1) hwf
  have hlookup : ∀ k, ((sentHeap env hp c1).maps hp.nextMap).lookup k = _ :=
    fun k => assembleHeader_lookup hp (gateClient env c1) k
  have hmapAt : hp.mapAt (gateClient env c1).headers = hp.maps a := by
    show hp.mapAt c1.headers = hp.maps a
    rw [hh]
    rfl
  rw [hh] at hwf
  have halloc : a < hp.nextMap := hwf.1 a rfl
  have hne : a ≠ hp.nextMap := by omega
  have hmaps : ∀ x, x < hp.nextMap → (sentHeap env hp c1).maps x = hp.maps x := fun x hx =>
    assembleHeader_maps hp (gateClient env c1) x (by omega)
  have harrays : ∀ y, y < hp.nextArr → (sentHeap env hp c1).arrays y = hp.arrays y :=
    fun y hy => assembleHeader_arrays hp (gateClient env c1) y hy
  have hnext : hp.nextArr ≤ (sentHeap env hp c1).nextArr :=
    assembleHeader_nextArr hp (gateClient env c1)
  rw [hheap, haddr]
  refine ⟨fun h => hne h.symm, cloneHeader_addr hp c1.headers, ?_, ?_, ?_, hmaps, harrays,
    ?_, ?_, ?_, ?_⟩
  · intro k
    have := cloneHeader_lookup hp c1.headers k
    rw [cloneHeader_addr] at this
    rw [this, hh]
    rfl
  · intro k hka hkc
    rw [hlookup k, if_neg (fun h => hkc h.1), if_neg hka, hmapAt]
  · intro hfound
    have hfound1 : ¬ ((cloneHeader hp (gateClient env c1).headers).1.headerSet hp.nextMap
        "Authorization" ("Bearer " ++ (gateClient env c1).authentication.AccessToken)).headerGet
          (some hp.nextMap) "Content-Type" = "" := by
      rw [hget]
      exact hfound
    rw [hlookup "Content-Type", if_neg (fun h => hfound1 h.2), if_neg (by decide), hmapAt]
  · exact header_frame hp _ a hwf (hmaps a halloc) harrays
  · intro k v k1
    refine header_frame hp ((sentHeap env hp c1).mapAssign hp.nextMap k v) a hwf ?_ harrays k1
    simp only [Heap.mapAssign, if_neg hne]
    exact hmaps a halloc
  · intro k k1
    refine header_frame hp ((sentHeap env hp c1).mapDelete hp.nextMap k) a hwf ?_ harrays k1
    simp only [Heap.mapDelete, if_neg hne]
    exact hmaps a halloc
  · intro k value k1
    refine header_frame hp _ a hwf ?_ ?_ k1
    · rw [headerSet_maps_other _ _ _ _ _ hne]
      exact hmaps a halloc
    · intro y hy
      rw [headerSet_arrays_old _ _ _ _ _ (by omega)]
      exact harrays y hy

/-- Witness of C9, as the code has it: defaults with one custom header.  The
map of the request binds it to the slice of the defaults, does not hold a key
the defaults lack, and after a later `Set` of that header on the request the
defaults still read `on`. -/
theorem request_keeps_default_headers_witness :
    (((stubOrg (some 0) false).request (stubEnv 200 []) (headerHeap [("X-Trace", ["on"])])
        "GET" "/projects" none).heap.maps 1).lookup "X-Trace" = some ⟨0, 0, 1⟩ ∧
    (((stubOrg (some 0) false).request (stubEnv 200 []) (headerHeap [("X-Trace", ["on"])])
        "GET" "/projects" none).heap.maps 1).lookup "X-Other" = none ∧
    (((stubOrg (some 0) false).request (stubEnv 200 []) (headerHeap [("X-Trace", ["on"])])
        "GET" "/projects" none).heap.headerSet 1 "X-Trace" "off").header (some 1) "X-Trace" =
      some ["off"] ∧
    (((stubOrg (some 0) false).request (stubEnv 200 []) (headerHeap [("X-Trace", ["on"])])
        "GET" "/projects" none).heap.headerSet 1 "X-Trace" "off").header (some 0) "X-Trace" =
      some ["on"] := by
  obtain ⟨_, _, _, hshared, _, _, _, _, _, _, hset⟩ :=
    request_keeps_default_headers (stubEnv 200 []) (headerHeap [("X-Trace", ["on"])])
      (stubOrg (some 0) false) "GET" "/projects" none
      ⟨"https://api.codeship.com/v2", some 0, false, ⟨"tok", 0⟩⟩ 0
      ⟨"GET", "https://api.codeship.com/v2/projects", none, 1⟩ (.ok ⟨200, .ok (some [])⟩)
      rfl rfl (by decide) (by decide)
  exact ⟨(hshared "X-Trace" (by decide) (by decide)).trans (by decide),
    (hshared "X-Other" (by decide) (by decide)).trans (by decide), by decide,
    (hset "X-Trace" "off" "X-Trace").trans (by decide)⟩

/-- Counterexample to C9 as stated: the request and the defaults share the
slice under `X-Trace`, and an element assignment through the headers of the
request, after the call, shows in the default headers of the client. -/
theorem shared_slice_write_reaches_defaults :
    Event.send ⟨"GET", "https://api.codeship.com/v2/projects", none, 1⟩
        (.ok ⟨200, .ok (some [])⟩) ∈
      ((stubOrg (some 0) false).request (stubEnv 200 []) (headerHeap [("X-Trace", ["on"])])
        "GET" "/projects" none).trace ∧
    (headerHeap [("X-Trace", ["on"])]).header (some 0) "X-Trace" = some ["on"] ∧
    (((stubOrg (some 0) false).request (stubEnv 200 []) (headerHeap [("X-Trace", ["on"])])
        "GET" "/projects" none).heap.maps 1).lookup "X-Trace" = some ⟨0, 0, 1⟩ ∧
    (((stubOrg (some 0) false).request (stubEnv 200 []) (headerHeap [("X-Trace", ["on"])])
        "GET" "/projects" none).heap.sliceStore ⟨0, 0, 1⟩ 0 "off").header (some 1) "X-Trace" =
      some ["off"] ∧
    (((stubOrg (some 0) false).request (stubEnv 200 []) (headerHeap [("X-Trace", ["on"])])
        "GET" "/projects" none).heap.sliceStore ⟨0, 0, 1⟩ 0 "off").header (some 0) "X-Trace" =
      some ["off"] := by
  decide

end Codeship
